import Mathlib

/-!
Verification of the booking-conflict / room-availability logic of the TTM
room-scheduling application, as a shallow embedding in Lean 4.

Conventions used throughout the embedding:
* Calendar dates (`YYYY-MM-DD` strings in the source) are represented as
  natural numbers; lexicographic comparison of the zero-padded date strings
  agrees with the numeric order of this representation.
* Wall-clock times stored on bookings (`HH:MM` / `HH:MM:SS` strings) are
  represented as minutes since midnight.  The source converts each string
  with a helper `getMinutes` before every arithmetic comparison; that helper
  is embedded faithfully over strings below, and it is proved that on
  well-formed time strings it computes exactly `hours * 60 + minutes`, which
  justifies working in minutes elsewhere.
* The managed-backend query (Supabase) performed by the availability checkers
  is embedded as a pure filter over a list of all stored bookings, followed by
  the checker body applied to an `Except`-valued fetch result (`Except.error`
  models a failed network/backend read, which the source reaches through its
  `catch` block).
-/

namespace TTM

/-- A timetable entry ("booking") as stored in the `timetable` table:
an id (Postgres `serial`, hence positive in practice), a classroom id,
a date, a start and end time, and the optional manual status from the
joined `class_status` row (one of the strings allowed by the database
check constraint: scheduled, ongoing, delayed, rescheduled, canceled,
ended). -/
structure Booking where
  id : Nat
  classroomId : Nat
  date : Nat
  startTime : Nat
  endTime : Nat
  manualStatus : Option String
  deriving DecidableEq, Repr

namespace TimetableForm

/-- The in-memory overlap test of `checkTimeSlotAvailability` in
`src/components/Timetable/TimetableForm.tsx`: `data?.some(booking => ...)`
computes, for each fetched booking, `!(currentEnd <= existingStart ||
currentStart >= existingEnd)`. -/
def hasOverlap (startTime endTime : Nat) (data : List Booking) : Bool :=
  data.any fun booking =>
    !(decide (endTime ≤ booking.startTime) || decide (startTime ≥ booking.endTime))

/-- The Supabase query built by `checkTimeSlotAvailability` in
`src/components/Timetable/TimetableForm.tsx`: rows of the `timetable` table
with `.eq('classroom_id', classroomId)`, `.eq('date', date)`, the
`.or('start_time.lt.endTime,end_time.gt.startTime')` prefilter, and
`.neq('id', currentEntryId)` added only when `currentEntryId` is truthy
(JavaScript: present and nonzero). -/
def fetchBookings (classroomId date startTime endTime : Nat)
    (currentEntryId : Option Nat) (table : List Booking) : List Booking :=
  table.filter fun b =>
    decide (b.classroomId = classroomId) && decide (b.date = date) &&
    (decide (b.startTime < endTime) || decide (startTime < b.endTime)) &&
    (match currentEntryId with
     | some i => if i ≠ 0 then decide (b.id ≠ i) else true
     | none => true)

/-- Model of `checkTimeSlotAvailability` of `src/components/Timetable/TimetableForm.tsx`
applied to the result of its query: on a successful fetch it returns
`!hasOverlap`; if the fetch failed the `catch` block returns `false`. -/
def checkTimeSlotAvailability (classroomId startTime endTime date : Nat)
    (currentEntryId : Option Nat) (fetch : Except String (List Booking)) : Bool :=
  match fetch with
  | Except.error _ => false
  | Except.ok data => !(hasOverlap startTime endTime data)

/-- The whole checker pipeline of `TimetableForm.tsx` run against a concrete
table of stored bookings, with the fetch succeeding. -/
def checkAgainst (classroomId startTime endTime date : Nat)
    (currentEntryId : Option Nat) (table : List Booking) : Bool :=
  checkTimeSlotAvailability classroomId startTime endTime date currentEntryId
    (Except.ok (fetchBookings classroomId date startTime endTime currentEntryId table))

end TimetableForm

namespace TeacherNavBar

/-- The in-memory overlap test of the module-level `checkTimeSlotAvailability`
in `src/teacher/NavBar.tsx` (textually duplicated from `TimetableForm.tsx`). -/
def hasOverlap (startTime endTime : Nat) (data : List Booking) : Bool :=
  data.any fun booking =>
    !(decide (endTime ≤ booking.startTime) || decide (startTime ≥ booking.endTime))

/-- The Supabase query built by `checkTimeSlotAvailability` in
`src/teacher/NavBar.tsx` (textually duplicated from `TimetableForm.tsx`). -/
def fetchBookings (classroomId date startTime endTime : Nat)
    (currentEntryId : Option Nat) (table : List Booking) : List Booking :=
  table.filter fun b =>
    decide (b.classroomId = classroomId) && decide (b.date = date) &&
    (decide (b.startTime < endTime) || decide (startTime < b.endTime)) &&
    (match currentEntryId with
     | some i => if i ≠ 0 then decide (b.id ≠ i) else true
     | none => true)

/-- Model of `checkTimeSlotAvailability` of `src/teacher/NavBar.tsx`: on a successful
fetch it returns `!hasOverlap`; on a failed fetch the `catch` block returns
`false`. -/
def checkTimeSlotAvailability (classroomId startTime endTime date : Nat)
    (currentEntryId : Option Nat) (fetch : Except String (List Booking)) : Bool :=
  match fetch with
  | Except.error _ => false
  | Except.ok data => !(hasOverlap startTime endTime data)

end TeacherNavBar

/-- JavaScript `Number(s)` restricted to the strings that occur as
colon-separated components of time strings: the empty string evaluates to
`0` (a JavaScript quirk), a nonempty all-digit string evaluates to its
value, and anything else evaluates to `NaN`, modelled as `none`.
(Signs, decimals and surrounding whitespace, which never occur in the
application's `HH:MM[:SS]` data, are not modelled.) -/
def jsNumber (cs : List Char) : Option Nat :=
  cs.foldl
    (fun acc c =>
      match acc, (if c.isDigit then some (c.toNat - 48) else none) with
      | some a, some d => some (a * 10 + d)
      | _, _ => none)
    (some 0)

/-- Model of `String.prototype.split(':')` on the character list of a time string. -/
def splitOnColon : List Char → List (List Char)
  | [] => [[]]
  | c :: rest =>
    let r := splitOnColon rest
    if c = ':' then [] :: r
    else
      match r with
      | g :: gs => (c :: g) :: gs
      | [] => [[c]]

/-- The helper `getMinutes` defined identically inside
`checkTimeSlotAvailability` in both `src/components/Timetable/TimetableForm.tsx`
and `src/teacher/NavBar.tsx`:
`const [hours, minutes] = time.split(':').map(Number); return hours*60+minutes`.
A `NaN` component (or a missing minutes component) makes the whole result
`NaN`, modelled as `none`.  No validation of any kind is performed. -/
def getMinutes (time : String) : Option Nat :=
  match (splitOnColon time.toList).map jsNumber with
  | some hours :: some minutes :: _ => some (hours * 60 + minutes)
  | _ => none

/-- The character for a decimal digit `d ≤ 9`. -/
def digitChar (d : Nat) : Char := Char.ofNat (48 + d)

/-- Two-digit zero-padded rendering of `n ≤ 99`, as a character list. -/
def render2 (n : Nat) : List Char := [digitChar (n / 10), digitChar (n % 10)]

/-- A well-formed `HH:MM` time string. -/
def renderHM (h m : Nat) : String := ⟨render2 h ++ ':' :: render2 m⟩

/-- A well-formed `HH:MM:SS` time string. -/
def renderHMS (h m s : Nat) : String :=
  ⟨render2 h ++ ':' :: (render2 m ++ ':' :: render2 s)⟩

/-- Two-digit zero-padded rendering as a string (used by 12-hour formatting). -/
def pad2 (n : Nat) : String := ⟨render2 n⟩

/-- JavaScript `String.prototype.toLowerCase()` on the ASCII strings used as
statuses: lowercase each character. -/
def toLowerCase (s : String) : String := ⟨s.data.map Char.toLower⟩

/-- JavaScript `<` on two character lists: lexicographic comparison of the
code units. -/
def charListLt : List Char → List Char → Bool
  | [], [] => false
  | [], _ :: _ => true
  | _ :: _, [] => false
  | a :: as, b :: bs =>
    if a.toNat < b.toNat then true
    else if b.toNat < a.toNat then false
    else charListLt as bs

/-- JavaScript `<` on two strings (all strings compared by the application
are ASCII, where JavaScript UTF-16 code-unit order is code-point order). -/
def strLt (a b : String) : Bool := charListLt a.data b.data

/-- The `en-US` 12-hour clock string (`hh:mm AM` / `hh:mm PM`, two-digit
hour and minute) produced for a wall-clock time of `m` minutes after
midnight.  This is the output format of both `getCurrentISTTime` and
`convertToIST` in `src/utils/timeUtils.ts` (`hour12: true`, 2-digit fields);
`convertToIST` is evaluated on a host whose local timezone is the reference
timezone, where its hour/minute shuffle is the identity. -/
def format12 (m : Nat) : String :=
  let h := m / 60
  let dh := if h % 12 = 0 then 12 else h % 12
  pad2 dh ++ ":" ++ pad2 (m % 60) ++ (if h < 12 then " AM" else " PM")

namespace ResetPassword

/-- The time-derived branch of `getClassStatus` in
`src/components/Auth/ResetPassword.tsx`: the date is compared with today and
the current 12-hour-formatted IST time string is compared with the
12-hour-formatted start/end time strings using JavaScript string comparison,
i.e. lexicographic order on the rendered `hh:mm AM/PM` strings
(`currentTime > convertToIST(end)` etc.).  Times are minutes after midnight;
`date`/`today` are numeric dates. -/
def timeDerivedStatus (date today : Nat) (nowMin startMin endMin : Nat) : String :=
  if date < today then "ended"
  else if date = today then
    if strLt (format12 endMin) (format12 nowMin) then "ended"
    else if !strLt (format12 nowMin) (format12 startMin)
        && !strLt (format12 endMin) (format12 nowMin) then "ongoing"
    else "scheduled"
  else "scheduled"

/-- Model of `getClassStatus` in `src/components/Auth/ResetPassword.tsx`: the
stored manual status, when present and nonempty (JavaScript truthiness),
is returned lowercased and verbatim; otherwise the status is derived from
the date and the 12-hour time strings as in `timeDerivedStatus`. -/
def getClassStatus (manual : Option String) (date today : Nat)
    (nowMin startMin endMin : Nat) : String :=
  match manual with
  | some s =>
    if s = "" then timeDerivedStatus date today nowMin startMin endMin
    else toLowerCase s
  | none => timeDerivedStatus date today nowMin startMin endMin

end ResetPassword

namespace ClassroomDisplayPage

/-- Model of `isTimeInRange` in `src/public/ClassroomDisplayPage.tsx`, after its inner
`getMinutes` conversion: inclusive on both ends, with an overnight-wraparound
adjustment when `end < start`. -/
def isTimeInRange (currentTime startTime endTime : Nat) : Bool :=
  let current := if endTime < startTime ∧ currentTime < startTime
    then currentTime + 24 * 60 else currentTime
  let e := if endTime < startTime then endTime + 24 * 60 else endTime
  decide (current ≥ startTime) && decide (current ≤ e)

end ClassroomDisplayPage

namespace TeacherNavBar

/-- A row of the `timetable` join processed by `updateRoomAvailability` in
`src/teacher/NavBar.tsx`: times as minutes after midnight, `classStatus` the
joined `class_status.status`. -/
structure TimetableEntry where
  id : Nat
  startTime : Nat
  endTime : Nat
  classStatus : Option String
  deriving DecidableEq, Repr

/-- The per-room mutable state threaded through the entry loop of
`updateRoomAvailability` (`room.isAvailable`, `room.currentClass`,
`room.nextClass`, and the loop locals `foundCurrent` and
`nextClassAfterCurrent`). -/
structure RoomState where
  isAvailable : Bool
  currentClass : Option TimetableEntry
  nextClass : Option TimetableEntry
  foundCurrent : Bool
  nextAfter : Option TimetableEntry
  deriving DecidableEq, Repr

/-- One iteration of the `for (const entry of roomClasses)` loop of
`updateRoomAvailability` in `src/teacher/NavBar.tsx`.  Note that the first
branch tests the string `'cancelled'` (double l) against
`entry.class_status?.status?.toLowerCase() || ''`, while the database check
constraint on `class_status.status` only admits the spelling `'canceled'`. -/
def stepEntry (now : Nat) (st : RoomState) (e : TimetableEntry) : RoomState :=
  let status := match e.classStatus with | some s => toLowerCase s | none => ""
  if status = "cancelled" then
    { st with isAvailable := true, currentClass := some e }
  else if e.startTime ≤ now ∧ now ≤ e.endTime then
    if status ≠ "rescheduled" ∧ status ≠ "ended" ∧ status ≠ "delayed" then
      { st with foundCurrent := true, isAvailable := false, currentClass := some e }
    else if st.currentClass.isNone then { st with currentClass := some e } else st
  else if now < e.startTime then
    if st.nextAfter.isNone then { st with nextAfter := some e, nextClass := some e }
    else st
  else st

/-- The per-room body of `updateRoomAvailability` in `src/teacher/NavBar.tsx`:
fold the loop over the room's entries (already sorted by start time, as the
source sorts them), starting from an available room with no current/next
class, then apply the trailing `if (!foundCurrent) room.isAvailable = true`. -/
def updateRoomAvailability (now : Nat) (entries : List TimetableEntry) : RoomState :=
  let st := entries.foldl (stepEntry now) ⟨true, none, none, false, none⟩
  if !st.foundCurrent then { st with isAvailable := true } else st

/-- Model of `getStatusDisplay` in `src/teacher/NavBar.tsx`: the stored status
(lowercased, defaulting to `'scheduled'` when absent or empty) except that a
manual `'ongoing'` is displayed as `'ended'` once the current IST time string
exceeds `entry.end_time` (24-hour zero-padded strings, whose lexicographic
order agrees with numeric order on the underlying times, here in seconds
after midnight). -/
def getStatusDisplay (classStatus : Option String) (nowSec endSec : Nat) : String :=
  let status := match classStatus with
    | some s => if toLowerCase s = "" then "scheduled" else toLowerCase s
    | none => "scheduled"
  if status = "ongoing" ∧ endSec < nowSec then "ended" else status

end TeacherNavBar

/-- Wall-clock minutes-of-day read off an instant `utcMin` (minutes since an
epoch, UTC) by a clock running at a fixed offset `offset` minutes from UTC. -/
def wallMinutes (utcMin offset : Int) : Int := (utcMin + offset) % 1440

/-- The current-time string computed by `fetchClassrooms` in
`src/public/ClassroomDisplayPage.tsx`:
`currentTime.toLocaleTimeString('en-GB', ...)` with no `timeZone` option,
i.e. the wall clock of the host machine's local timezone (`hostOffset`
minutes from UTC). -/
def classroomDisplayCurrentMinutes (utcMin hostOffset : Int) : Int :=
  wallMinutes utcMin hostOffset

/-- The IST instant computed by `fetchData` in the teacher dashboard
(src/unnamed/part_003): `new Date(now.getTime() + 330*60*1000)` — a fixed
+330-minute offset applied to the UTC instant, ignoring the host timezone. -/
def part003IstNowMinutes (utcMin hostOffset : Int) : Int :=
  wallMinutes utcMin 330

/-- Model of `getCurrentISTTime` in `src/utils/timeUtils.ts` (quoted in the README):
`toLocaleTimeString` with `timeZone: 'Asia/Kolkata'`, i.e. the fixed
UTC+5:30 = +330-minute clock, ignoring the host timezone. -/
def getCurrentISTTimeMinutes (utcMin hostOffset : Int) : Int :=
  wallMinutes utcMin 330

/-- A booking with its manual status removed (all other fields unchanged). -/
def clearStatus (b : Booking) : Booking := { b with manualStatus := none }

/-- Booking A of the room-availability scenario: 09:00 to 10:00, manual
status canceled. -/
def entryA : TeacherNavBar.TimetableEntry := ⟨1, 540, 600, some "canceled"⟩

/-- Booking B of the room-availability scenario: 10:00 to 11:00, scheduled. -/
def entryB : TeacherNavBar.TimetableEntry := ⟨2, 600, 660, some "scheduled"⟩

/-! ## Helper lemmas -/

theorem digVal_digitChar {d : Nat} (hd : d ≤ 9) :
    (if (digitChar d).isDigit then some ((digitChar d).toNat - 48) else none) = some d := by
  interval_cases d <;> decide

theorem digitChar_ne_colon {d : Nat} (hd : d ≤ 9) : digitChar d ≠ ':' := by
  interval_cases d <;> decide

theorem jsNumber_render2 {n : Nat} (hn : n ≤ 99) : jsNumber (render2 n) = some n := by
  have h1 : n / 10 ≤ 9 := by omega
  have h2 : n % 10 ≤ 9 := by omega
  simp only [jsNumber, render2, List.foldl, digVal_digitChar h1, digVal_digitChar h2,
    Option.some.injEq]
  omega

theorem render2_ne_colon {n : Nat} (hn : n ≤ 99) : ∀ c ∈ render2 n, c ≠ ':' := by
  have h1 : n / 10 ≤ 9 := by omega
  have h2 : n % 10 ≤ 9 := by omega
  simp only [render2, List.mem_cons, List.not_mem_nil, or_false]
  rintro c (rfl | rfl)
  · exact digitChar_ne_colon h1
  · exact digitChar_ne_colon h2

theorem splitOnColon_no_colon (xs : List Char) (h : ∀ c ∈ xs, c ≠ ':') :
    splitOnColon xs = [xs] := by
  induction xs with
  | nil => rfl
  | cons c rest ih =>
    have hc : c ≠ ':' := h c (List.mem_cons_self _ _)
    have hrest : ∀ x ∈ rest, x ≠ ':' := fun x hx => h x (List.mem_cons_of_mem _ hx)
    simp [splitOnColon, ih hrest, hc]

theorem splitOnColon_append (xs ys : List Char) (h : ∀ c ∈ xs, c ≠ ':') :
    splitOnColon (xs ++ ':' :: ys) = xs :: splitOnColon ys := by
  induction xs with
  | nil => simp [splitOnColon]
  | cons c rest ih =>
    have hc : c ≠ ':' := h c (List.mem_cons_self _ _)
    have hrest : ∀ x ∈ rest, x ≠ ':' := fun x hx => h x (List.mem_cons_of_mem _ hx)
    rw [List.cons_append, splitOnColon, ih hrest]
    simp [hc]

/-! ## Claim theorems -/

/-- Claim C1: for every proposed range with normalized start < end and every
list of bookings fetched for the same classroom and date (after exclusions),
`checkTimeSlotAvailability` returns `false` exactly when some fetched booking
satisfies `NOT (proposedEnd <= existingStart OR proposedStart >= existingEnd)`,
and returns `true` otherwise; in particular back-to-back bookings (touching
boundaries) are reported available. -/
theorem checkTimeSlotAvailability_false_iff_overlap
    (classroomId s e date : Nat) (excl : Option Nat) (bs : List Booking)
    (h : s < e) :
    (TimetableForm.checkTimeSlotAvailability classroomId s e date excl
        (Except.ok bs) = false)
      ↔ ∃ b ∈ bs, ¬ (e ≤ b.startTime ∨ s ≥ b.endTime) := by
  simp [TimetableForm.checkTimeSlotAvailability, TimetableForm.hasOverlap,
    List.any_eq_true, not_or]

/-- Witness for claim C1 at a concrete input: proposal 09:00 to 10:00 against
one fetched booking 09:30 to 10:30, which overlaps. -/
theorem checkTimeSlotAvailability_false_iff_overlap_witness :
    540 < 600 ∧
    ((TimetableForm.checkTimeSlotAvailability 5 540 600 20240110 none
        (Except.ok [⟨7, 5, 20240110, 570, 630, none⟩]) = false)
      ↔ ∃ b ∈ [(⟨7, 5, 20240110, 570, 630, none⟩ : Booking)],
          ¬ (600 ≤ b.startTime ∨ 540 ≥ b.endTime)) :=
  ⟨by decide,
   checkTimeSlotAvailability_false_iff_overlap 5 540 600 20240110 none
     [⟨7, 5, 20240110, 570, 630, none⟩] (by decide)⟩

/-- Claim C2, counterexample: a proposal (09:00 to 10:00) that overlaps only a
booking whose manual status is canceled is reported unavailable (`false`),
because neither the query nor the overlap loop of `checkTimeSlotAvailability`
looks at the manual status; the claim says it would be reported available. -/
theorem canceled_booking_blocks_slot :
    TimetableForm.checkAgainst 5 540 600 20240110 none
      [⟨1, 5, 20240110, 540, 600, some "canceled"⟩] = false := by decide

/-- Claim C2 as amended: the availability check ignores `manualStatus`
entirely — erasing every fetched booking's manual status never changes the
result, so canceled bookings are considered for conflicts exactly like any
other booking. -/
theorem checkAvailability_ignores_manualStatus
    (classroomId s e date : Nat) (excl : Option Nat) (table : List Booking) :
    TimetableForm.checkAgainst classroomId s e date excl (table.map clearStatus)
      = TimetableForm.checkAgainst classroomId s e date excl table := by
  simp only [TimetableForm.checkAgainst, TimetableForm.checkTimeSlotAvailability,
    TimetableForm.fetchBookings, TimetableForm.hasOverlap]
  rw [List.filter_map, List.any_map]
  rfl

/-- Claim C3, counterexample: `getClassStatus` with a stored manual status
of ongoing returns ongoing, not ended, even though the current time (11:00)
is strictly after the booking's end time (10:00): the manual override is
returned verbatim before any time comparison. -/
theorem getClassStatus_manual_ongoing_past_end :
    ResetPassword.getClassStatus (some "ongoing") 5 5 660 540 600 = "ongoing"
      ∧ 600 < 660 := by decide

/-- Claim C3 as amended: in the teacher dashboard's `getStatusDisplay`, a
stored manual status of ongoing is displayed as ended whenever the current
time is strictly after the booking's end time (the override does not survive
past the window there); the `getClassStatus` duplicate in ResetPassword.tsx
instead returns the stored status verbatim. -/
theorem getStatusDisplay_ongoing_decays (nowSec endSec : Nat) (h : endSec < nowSec) :
    TeacherNavBar.getStatusDisplay (some "ongoing") nowSec endSec = "ended" := by
  have htl : toLowerCase "ongoing" = "ongoing" := rfl
  rw [TeacherNavBar.getStatusDisplay]
  simp only [htl]
  rw [if_neg (by decide : ¬ ("ongoing" : String) = "")]
  rw [if_pos ⟨rfl, h⟩]

/-- Witness for the amended claim C3: end 10:00:00 (36000 s), now 11:01:00
(39660 s). -/
theorem getStatusDisplay_ongoing_decays_witness :
    36000 < 39660 ∧
    TeacherNavBar.getStatusDisplay (some "ongoing") 39660 36000 = "ended" :=
  ⟨by decide, getStatusDisplay_ongoing_decays 39660 36000 (by decide)⟩

/-- Claim C4: on the scenario room with booking A (09:00 to 10:00, manual
status canceled) and B (10:00 to 11:00, scheduled) at current time 09:30,
`updateRoomAvailability` in `src/teacher/NavBar.tsx` marks the room
UNAVAILABLE (`isAvailable = false`), contradicting the claim (and the
function's own comment): its cancellation branch tests the spelling
`'cancelled'`, which the database check constraint (`'canceled'`) never
stores, so booking A occupies the room; the next-booking fallback does
resolve to B as claimed. -/
theorem updateRoomAvailability_canceled_occupies :
    (TeacherNavBar.updateRoomAvailability 570 [entryA, entryB]).isAvailable = false
      ∧ (TeacherNavBar.updateRoomAvailability 570 [entryA, entryB]).nextClass
          = some entryB := by decide

/-- Claim C5, counterexample: when the underlying booking fetch fails, the
checker catches the error and returns the ordinary boolean `false`; no
`AvailabilityCheckFailed` error reaches the caller, contradicting the claim
that a fetch failure is never reported as the ordinary unavailable answer. -/
theorem checkTimeSlotAvailability_error_is_false :
    TimetableForm.checkTimeSlotAvailability 5 540 600 20240110 none
      (Except.error "network error") = false := rfl

/-- Claim C5 as amended: on every failed fetch the checker returns `false`
(unavailable); a failure is therefore never reported as available, but it is
swallowed into the ordinary boolean answer rather than surfaced as an
`AvailabilityCheckFailed` error. -/
theorem checkTimeSlotAvailability_error_never_available
    (classroomId s e date : Nat) (excl : Option Nat) (msg : String) :
    TimetableForm.checkTimeSlotAvailability classroomId s e date excl
      (Except.error msg) = false := rfl

/-- Claim C6: for a booking on today's date with no manual override, from
09:00 to 13:00, at current time 12:30 the current time lies within the range
inclusive (as `isTimeInRange` in ClassroomDisplayPage.tsx confirms), so the
claim requires status ongoing; but `getClassStatus` in ResetPassword.tsx
returns ended, because it compares the 12-hour clock strings
lexicographically and "12:30 PM" sorts above "01:00 PM". -/
theorem getClassStatus_noon_crossing_misreported :
    ClassroomDisplayPage.isTimeInRange 750 540 780 = true
      ∧ ResetPassword.getClassStatus none 5 5 750 540 780 = "ended" := by decide

/-- Claim C7, counterexample: `getMinutes` applied to the malformed time
string "25:00" (hour out of range) produces the value 1500, which lies
outside `[0, 1439]`, instead of failing with an `InvalidTimeFormat` error. -/
theorem getMinutes_no_range_check :
    getMinutes "25:00" = some 1500 ∧ 1439 < 1500 := by decide

/-- Claim C7 as amended: `getMinutes` performs no validation (malformed input
yields an out-of-range number or NaN rather than an `InvalidTimeFormat`
error), but on every well-formed `HH:MM` or `HH:MM:SS` string with hour at
most 23 and minute at most 59 it returns exactly `hours * 60 + minutes`,
an integer in `[0, 1439]`, with any seconds component ignored. -/
theorem getMinutes_well_formed (h m s : Nat) (hh : h ≤ 23) (hm : m ≤ 59) (hs : s ≤ 59) :
    getMinutes (renderHM h m) = some (h * 60 + m)
      ∧ getMinutes (renderHMS h m s) = some (h * 60 + m)
      ∧ h * 60 + m ≤ 1439 := by
  have hh99 : h ≤ 99 := by omega
  have hm99 : m ≤ 99 := by omega
  have hs99 : s ≤ 99 := by omega
  refine ⟨?_, ?_, by omega⟩
  · show getMinutes ⟨render2 h ++ ':' :: render2 m⟩ = some (h * 60 + m)
    rw [getMinutes, show (String.mk (render2 h ++ ':' :: render2 m)).toList
        = render2 h ++ ':' :: render2 m from rfl,
      splitOnColon_append _ _ (render2_ne_colon hh99),
      splitOnColon_no_colon _ (render2_ne_colon hm99)]
    simp [jsNumber_render2 hh99, jsNumber_render2 hm99]
  · show getMinutes ⟨render2 h ++ ':' :: (render2 m ++ ':' :: render2 s)⟩
        = some (h * 60 + m)
    rw [getMinutes, show (String.mk (render2 h ++ ':' :: (render2 m ++ ':' :: render2 s))).toList
        = render2 h ++ ':' :: (render2 m ++ ':' :: render2 s) from rfl,
      splitOnColon_append _ _ (render2_ne_colon hh99),
      splitOnColon_append _ _ (render2_ne_colon hm99),
      splitOnColon_no_colon _ (render2_ne_colon hs99)]
    simp [jsNumber_render2 hh99, jsNumber_render2 hm99, jsNumber_render2 hs99]

/-- Witness for the amended claim C7 at 09:30 (and 09:30:45). -/
theorem getMinutes_well_formed_witness :
    9 ≤ 23 ∧ 30 ≤ 59 ∧ 45 ≤ 59 ∧
    (getMinutes (renderHM 9 30) = some (9 * 60 + 30)
      ∧ getMinutes (renderHMS 9 30 45) = some (9 * 60 + 30)
      ∧ 9 * 60 + 30 ≤ 1439) :=
  ⟨by decide, by decide, by decide,
   getMinutes_well_formed 9 30 45 (by decide) (by decide) (by decide)⟩

/-- Claim C8: invoking the availability check with `excludeBookingId` equal
to an existing (nonzero, as ids are Postgres serials) booking id removes that
booking from conflict consideration: if every stored booking for the
classroom and date that overlaps the proposal carries the excluded id, the
check returns available. In particular re-submitting a booking's own
unchanged range as an edit of itself returns available. -/
theorem checkAgainst_excludes_booking
    (classroomId s e date i : Nat) (table : List Booking) (hi : i ≠ 0)
    (h : ∀ b ∈ table, b.classroomId = classroomId → b.date = date →
        ¬ (e ≤ b.startTime ∨ s ≥ b.endTime) → b.id = i) :
    TimetableForm.checkAgainst classroomId s e date (some i) table = true := by
  rw [TimetableForm.checkAgainst, TimetableForm.checkTimeSlotAvailability,
    Bool.not_eq_true']
  rw [TimetableForm.hasOverlap, List.any_eq_false]
  intro b hb
  rw [TimetableForm.fetchBookings, List.mem_filter] at hb
  obtain ⟨hbt, hpred⟩ := hb
  simp only [hi, Bool.and_eq_true, decide_eq_true_eq, Bool.or_eq_true, ne_eq,
    not_false_eq_true, if_true, ite_not, decide_eq_false_iff_not] at hpred
  obtain ⟨⟨⟨hcls, hdate⟩, -⟩, hid⟩ := hpred
  simp only [Bool.not_eq_true', Bool.or_eq_false_iff, decide_eq_false_iff_not, not_le,
    Bool.not_eq_false, Bool.not_eq_true, decide_eq_true_eq, ge_iff_le]
  by_contra hcon
  exact hid (h b hbt hcls hdate (by omega))

/-- Witness for claim C8: editing the sole existing booking (id 1,
09:00 to 10:00) with its own unchanged range returns available. -/
theorem checkAgainst_excludes_booking_witness :
    (1 : Nat) ≠ 0 ∧
    TimetableForm.checkAgainst 5 540 600 20240110 (some 1)
      [⟨1, 5, 20240110, 540, 600, none⟩] = true :=
  ⟨by decide,
   checkAgainst_excludes_booking 5 540 600 20240110 1
     [⟨1, 5, 20240110, 540, 600, none⟩] (by decide) (by decide)⟩

/-- Claim C9, counterexample: the current-time string computed by
`fetchClassrooms` in ClassroomDisplayPage.tsx uses the host machine's local
wall clock (`toLocaleTimeString` with no `timeZone` option), so at the same
UTC instant two hosts with different local offsets observe different current
times — the claim that every such computation applies the fixed +330-minute
offset and is host-timezone independent is false. -/
theorem classroomDisplay_host_timezone_dependent :
    classroomDisplayCurrentMinutes 600 0 ≠ classroomDisplayCurrentMinutes 600 60 := by
  decide

/-- Claim C9 as amended: the teacher-dashboard fetch (src/unnamed/part_003)
and the shared `getCurrentISTTime` utility do apply the fixed +330-minute IST
offset to the UTC instant and are therefore independent of the host
timezone; the public ClassroomDisplayPage, however, reads the host-local
wall clock, so the system as a whole is not host-timezone independent. -/
theorem ist_time_host_independent (utcMin h1 h2 : Int) :
    part003IstNowMinutes utcMin h1 = part003IstNowMinutes utcMin h2
      ∧ getCurrentISTTimeMinutes utcMin h1 = getCurrentISTTimeMinutes utcMin h2 :=
  ⟨rfl, rfl⟩

/-- Claim C10: the availability checker duplicated in the admin timetable
form and in the teacher booking form are extensionally equal — for every
classroom, proposed range, date, optional excluded id and fetch outcome they
return the same boolean. -/
theorem checkers_extensionally_equal
    (classroomId s e date : Nat) (excl : Option Nat)
    (fetch : Except String (List Booking)) :
    TimetableForm.checkTimeSlotAvailability classroomId s e date excl fetch
      = TeacherNavBar.checkTimeSlotAvailability classroomId s e date excl fetch := by
  cases fetch <;> rfl

end TTM
